import Mathlib

/-!
Shallow embedding of the assessment-agent submission workflow:
the submission lifecycle server actions (`createSubmission`,
`updateSubmission`, `getSubmissions`), the auth guards (`requireAuth`,
`requireRole`, `requireAdmin`, `requireSuperAdmin`), the LLM routing
helper `determineComplexity`, the grading pipeline
(`assessSubmission`, `AssessmentEngine.assessSubmissionWithBase`,
`AssessmentEngine.processAndStoreAssessment`,
`AssessmentEngine.batchAssessSubmissions`) and the result listing
(`AssessmentResultManager.getAssessmentResults`).

Conventions of the embedding:
* TypeScript `string | null | undefined` fields become `Option String`;
  a JS falsy test on a string (`x || null`, `!x`) is rendered by
  treating both `none` and `some ""` as falsy.
* Database state is explicit: a `DB` record of row lists threaded
  through each action.  Prisma `findUnique` becomes `List.find?`;
  a single-row `update` rewrites the matching row in place.
* The external LLM call (`generateObject`) is a parameter of type
  `Except String AssessmentResult`: `.ok r` models a successful parse,
  `.error e` models any thrown exception (network, parse, validation).
* Timestamps are `Nat` parameters (`now`); `new Date()` is `some now`.
* Fire-and-forget grading dispatch is modelled by a `Bool` in the
  action's result: `true` when `processSubmission` was scheduled.
-/

namespace AssessmentAgent

/-- `Role` / `UserRole` enum of the Prisma schema. -/
inductive Role where
  | SUPER_ADMIN
  | COURSE_ADMIN
  | STUDENT
deriving DecidableEq, Repr

/-- `SubmissionType` enum of the Prisma schema. -/
inductive SubmissionType where
  | TEXT
  | DOCUMENT
  | WEBSITE
  | GITHUB_REPO
deriving DecidableEq, Repr

/-- `SubmissionStatus` enum of the Prisma schema. -/
inductive SubmissionStatus where
  | PENDING
  | PROCESSING
  | COMPLETED
  | FAILED
deriving DecidableEq, Repr

/-- The lower-cased name used in the `"${type.toLowerCase()} content is
required"` error message of `createSubmission`. -/
def SubmissionType.toLower : SubmissionType → String
  | .TEXT => "text"
  | .DOCUMENT => "document"
  | .WEBSITE => "website"
  | .GITHUB_REPO => "github_repo"

/-- `comparisonData` JSON payload stored on a graded submission. -/
structure ComparisonData where
  similarities : List String
  differences : List String
  suggestions : List String
deriving DecidableEq, Repr

/-- `Course` row (the fields the submission actions read). -/
structure Course where
  id : String
  title : String
  adminId : String
deriving DecidableEq, Repr

/-- `CourseEnrollment` row. -/
structure Enrollment where
  courseId : String
  studentId : String
deriving DecidableEq, Repr

/-- `BaseExample` row (the fields the grading pipeline reads). -/
structure BaseExample where
  content : String
deriving DecidableEq, Repr

/-- `Question` row, carried with its (required) parent course and its
optional 1:1 base example, mirroring the Prisma `include` shape the
actions query with. -/
structure Question where
  id : String
  title : String
  description : String
  criteria : Option String
  submissionType : SubmissionType
  isActive : Bool
  course : Course
  baseExample : Option BaseExample
deriving DecidableEq, Repr

/-- `Submission` row.  `score` is the integer column, `confidence` the
float column rendered as `Rat`. -/
structure Submission where
  id : String
  questionId : String
  studentId : String
  content : Option String
  fileUrl : Option String
  websiteUrl : Option String
  githubUrl : Option String
  status : SubmissionStatus
  submittedAt : Nat
  processedAt : Option Nat
  score : Option Int
  feedback : Option String
  confidence : Option Rat
  comparisonData : Option ComparisonData
deriving DecidableEq, Repr

/-- The persisted store: the row lists the submission workflow touches.
Foreign keys are by id; `Question.course` is embedded since the schema
makes the relation required. -/
structure DB where
  questions : List Question
  enrollments : List Enrollment
  submissions : List Submission
deriving DecidableEq, Repr

/-- An authenticated caller as returned by `requireAuth` inside the
server actions: session id plus role. -/
structure AuthUser where
  id : String
  role : Role
deriving DecidableEq, Repr

/-- The `{ success, data?, error? }` `ActionResult` shape returned by
every server action. -/
inductive ActionResult (α : Type) where
  | ok (data : α)
  | err (error : String)
deriving DecidableEq, Repr

namespace ActionResult

def isOk {α : Type} : ActionResult α → Bool
  | .ok _ => true
  | .err _ => false

end ActionResult

/-! ### Auth guards (`src/lib/auth.ts`) -/

/-- The session user provided by next-auth: the `role` claim on the
session token is optional (`!user.role` is checked). -/
structure SessionUser where
  id : String
  email : String
  role : Option Role
deriving DecidableEq, Repr

/-- `getCurrentUser()`: returns `session?.user`, i.e. the ambient
session made explicit as an argument. -/
def getCurrentUser (session : Option SessionUser) : Option SessionUser :=
  session

/-- `requireAuth()`: throws `"Authentication required"` when there is
no session user. -/
def requireAuth (session : Option SessionUser) : Except String SessionUser :=
  match getCurrentUser session with
  | none => .error "Authentication required"
  | some u => .ok u

/-- `requireRole(allowedRoles)`: `requireAuth` then
`!user.role || !allowedRoles.includes(user.role)` throws
`"Insufficient permissions"`. -/
def requireRole (session : Option SessionUser) (allowedRoles : List Role) :
    Except String SessionUser :=
  match requireAuth session with
  | .error e => .error e
  | .ok u =>
    match u.role with
    | none => .error "Insufficient permissions"
    | some r =>
      if allowedRoles.contains r then .ok u
      else .error "Insufficient permissions"

/-- `requireSuperAdmin()` = `requireRole([SUPER_ADMIN])`. -/
def requireSuperAdmin (session : Option SessionUser) : Except String SessionUser :=
  requireRole session [Role.SUPER_ADMIN]

/-- `requireAdmin()` = `requireRole([SUPER_ADMIN, COURSE_ADMIN])`. -/
def requireAdmin (session : Option SessionUser) : Except String SessionUser :=
  requireRole session [Role.SUPER_ADMIN, Role.COURSE_ADMIN]

/-! ### Content extraction helper (`submission-actions.ts`) -/

/-- JS string truthiness: `x || null` with `x : string | null |
undefined` yields `null` exactly when `x` is absent or empty. -/
def jsOrNull (x : Option String) : Option String :=
  match x with
  | none => none
  | some s => if s = "" then none else some s

/-- The four nullable content columns, as both submission rows and
action payloads expose them to `getSubmissionContent`. -/
structure ContentFields where
  content : Option String
  fileUrl : Option String
  websiteUrl : Option String
  githubUrl : Option String
deriving DecidableEq, Repr

/-- `getSubmissionContent(submissionType, data)`: picks the single
field matching the question's kind, mapping falsy values to `null`. -/
def getSubmissionContent (submissionType : SubmissionType)
    (data : ContentFields) : Option String :=
  match submissionType with
  | .TEXT => jsOrNull data.content
  | .WEBSITE => jsOrNull data.websiteUrl
  | .GITHUB_REPO => jsOrNull data.githubUrl
  | .DOCUMENT => jsOrNull data.fileUrl

/-- The content-field view of a submission row. -/
def Submission.fields (s : Submission) : ContentFields :=
  { content := s.content, fileUrl := s.fileUrl
    websiteUrl := s.websiteUrl, githubUrl := s.githubUrl }

/-! ### LLM routing (`llm-service.ts`) -/

/-- `LLMComplexity` enum. -/
inductive LLMComplexity where
  | BASIC
  | STANDARD
  | COMPLEX
  | AGENTIC
deriving DecidableEq, Repr

/-- The enum's string value (used in assessment metrics). -/
def LLMComplexity.toStr : LLMComplexity → String
  | .BASIC => "basic"
  | .STANDARD => "standard"
  | .COMPLEX => "complex"
  | .AGENTIC => "agentic"

/-- `getModelForComplexity`. -/
def getModelForComplexity (complexity : LLMComplexity) : String :=
  match complexity with
  | .BASIC => "llama-3.1-8b-instant"
  | .STANDARD => "llama-3.1-70b-versatile"
  | .COMPLEX => "llama-3.1-70b-versatile"
  | .AGENTIC => "llama-3.1-70b-versatile"

/-- `determineComplexity(submissionType, contentLength?,
hasCodeAnalysis?)`.  `contentLength && contentLength > 1000` is false
when the length is absent or `0` (JS numeric falsiness), which
coincides with `contentLength.getD 0 > 1000`; the `hasCodeAnalysis`
argument is accepted but never read, as in the source. -/
def determineComplexity (submissionType : SubmissionType)
    (contentLength : Option Nat) (_hasCodeAnalysis : Option Bool := none) :
    LLMComplexity :=
  match submissionType with
  | .TEXT =>
    if contentLength.getD 0 > 1000 then LLMComplexity.STANDARD
    else LLMComplexity.BASIC
  | .DOCUMENT =>
    if contentLength.getD 0 > 5000 then LLMComplexity.COMPLEX
    else LLMComplexity.STANDARD
  | .WEBSITE => LLMComplexity.STANDARD
  | .GITHUB_REPO => LLMComplexity.AGENTIC

/-! ### Submission lifecycle actions (`submission-actions.ts`)

Each action takes the authenticated caller (the result of the
`requireAuth()` at its head) and the current store, and returns the
`ActionResult`, the store after the action, and whether a background
`processSubmission` run was scheduled for the touched submission. -/

/-- `createSubmission` payload after `createSubmissionSchema.parse`
(all four content fields optional strings; URL-format validation of
the three URL fields is part of the zod schema and is assumed to have
passed — every concrete input below is a well-formed URL). -/
structure CreateSubmissionInput where
  questionId : String
  content : Option String
  fileUrl : Option String
  websiteUrl : Option String
  githubUrl : Option String
deriving DecidableEq, Repr

def CreateSubmissionInput.fields (i : CreateSubmissionInput) : ContentFields :=
  { content := i.content, fileUrl := i.fileUrl
    websiteUrl := i.websiteUrl, githubUrl := i.githubUrl }

/-- `updateSubmission` payload: `content` is `optional()` (absent =
not updated), the three URL fields are `optional().nullable()`
(`none` = not updated, `some none` = set to null). -/
structure UpdateSubmissionInput where
  id : String
  content : Option String
  fileUrl : Option (Option String)
  websiteUrl : Option (Option String)
  githubUrl : Option (Option String)
deriving DecidableEq, Repr

/-- The payload as `getSubmissionContent` sees it: `data.fileUrl`
denotes `undefined`/`null`/string, i.e. the join of the two option
layers. -/
def UpdateSubmissionInput.fields (i : UpdateSubmissionInput) : ContentFields :=
  { content := i.content, fileUrl := i.fileUrl.join
    websiteUrl := i.websiteUrl.join, githubUrl := i.githubUrl.join }

/-- Prisma `update` semantics for the payload's content fields:
`undefined` leaves the column, `null` clears it. -/
def applyContentUpdate (s : Submission) (i : UpdateSubmissionInput) : Submission :=
  { s with
    content := match i.content with | none => s.content | some v => some v
    fileUrl := match i.fileUrl with | none => s.fileUrl | some v => v
    websiteUrl := match i.websiteUrl with | none => s.websiteUrl | some v => v
    githubUrl := match i.githubUrl with | none => s.githubUrl | some v => v }

/-- Rewrite the single submission row with the given id. -/
def DB.updateRow (db : DB) (id : String) (f : Submission → Submission) : DB :=
  { db with submissions := db.submissions.map fun s => if s.id = id then f s else s }

/-- `createSubmission(data)`: role gate, question lookup with
enrollment subquery, active check, content extraction, then insert of
a PENDING row holding all four payload fields verbatim, and a
fire-and-forget `processSubmission` dispatch. -/
def createSubmission (user : AuthUser) (db : DB) (input : CreateSubmissionInput)
    (newId : String) (now : Nat) : ActionResult Submission × DB × Bool :=
  if user.role ≠ Role.STUDENT then
    (.err "Only students can create submissions", db, false)
  else
    match db.questions.find? (fun q => q.id = input.questionId) with
    | none => (.err "Question not found", db, false)
    | some question =>
      if (db.enrollments.filter fun e =>
            decide (e.courseId = question.course.id ∧ e.studentId = user.id)).length = 0 then
        (.err "You must be enrolled in this course to submit", db, false)
      else if ¬ question.isActive then
        (.err "This question is no longer accepting submissions", db, false)
      else
        match getSubmissionContent question.submissionType input.fields with
        | none =>
          (.err (question.submissionType.toLower ++ " content is required"), db, false)
        | some _ =>
          let submission : Submission :=
            { id := newId
              questionId := input.questionId
              studentId := user.id
              content := input.content
              fileUrl := input.fileUrl
              websiteUrl := input.websiteUrl
              githubUrl := input.githubUrl
              status := SubmissionStatus.PENDING
              submittedAt := now
              processedAt := none
              score := none
              feedback := none
              confidence := none
              comparisonData := none }
          (.ok submission,
            { db with submissions := db.submissions ++ [submission] }, true)

/-- `updateSubmission(data)`: ownership and PROCESSING gates, then the
content-change detection (`newContent && newContent !==
getSubmissionContent(type, existing)`) that resets the grading fields
and re-schedules grading.  The question row is joined through the
required `question` relation; a dangling foreign key (impossible under
the schema's integrity constraints) falls into the outer catch. -/
def updateSubmission (user : AuthUser) (db : DB) (input : UpdateSubmissionInput) :
    ActionResult Submission × DB × Bool :=
  match db.submissions.find? (fun s => s.id = input.id) with
  | none => (.err "Submission not found", db, false)
  | some existingSubmission =>
    if existingSubmission.studentId ≠ user.id then
      (.err "You can only update your own submissions", db, false)
    else if existingSubmission.status = SubmissionStatus.PROCESSING then
      (.err "Cannot update submission while it is being processed", db, false)
    else
      match db.questions.find? (fun q => q.id = existingSubmission.questionId) with
      | none => (.err "Failed to update submission", db, false)
      | some question =>
        let newContent := getSubmissionContent question.submissionType input.fields
        let contentChanged :=
          match newContent with
          | none => false
          | some v =>
            some v ≠ getSubmissionContent question.submissionType existingSubmission.fields
        let written := applyContentUpdate existingSubmission input
        let submission :=
          if contentChanged then
            { written with
              status := SubmissionStatus.PENDING
              score := none
              feedback := none
              confidence := none
              comparisonData := none
              processedAt := none }
          else written
        let db' := db.updateRow input.id fun _ => submission
        let scheduled :=
          newContent.isSome && decide (submission.status = SubmissionStatus.PENDING)
        (.ok submission, db', scheduled)

/-! ### Role-scoped listing (`getSubmissions`) -/

/-- The `whereClause` shape `getSubmissions` builds: an optional
`questionId` equality, an optional `studentId` equality, and an
optional `question.course.adminId` relation filter. -/
structure SubmissionWhere where
  questionId : Option String
  studentId : Option String
  questionCourseAdminId : Option String
deriving DecidableEq, Repr

/-- Evaluate a `SubmissionWhere` against a row; the relation filter
joins the question through its foreign key (rows whose question is
missing cannot satisfy a relation filter). -/
def submissionMatches (db : DB) (w : SubmissionWhere) (s : Submission) : Bool :=
  (match w.questionId with
    | none => true
    | some qid => decide (s.questionId = qid)) &&
  (match w.studentId with
    | none => true
    | some sid => decide (s.studentId = sid)) &&
  (match w.questionCourseAdminId with
    | none => true
    | some aid =>
      match db.questions.find? (fun q => q.id = s.questionId) with
      | none => false
      | some q => decide (q.course.adminId = aid))

/-- `getSubmissions(questionId?)`: optional per-question access check,
then the role-based filter (students see their own rows, course admins
the rows of their courses, super admins everything), ordered by
`submittedAt` descending. -/
def getSubmissions (user : AuthUser) (db : DB) (questionId : Option String) :
    ActionResult (List Submission) :=
  let whereClause : SubmissionWhere :=
    { questionId := questionId
      studentId := if user.role = Role.STUDENT then some user.id else none
      questionCourseAdminId :=
        if user.role = Role.COURSE_ADMIN then some user.id else none }
  let run : ActionResult (List Submission) :=
    .ok ((db.submissions.filter (submissionMatches db whereClause)).mergeSort
      fun a b => b.submittedAt ≤ a.submittedAt)
  match questionId with
  | none => run
  | some qid =>
    match db.questions.find? (fun q => q.id = qid) with
    | none => .err "Question not found"
    | some question =>
      let enrolled :=
        (db.enrollments.filter fun e =>
          decide (e.courseId = question.course.id ∧ e.studentId = user.id)).length > 0
      if user.role = Role.SUPER_ADMIN ∨
          (user.role = Role.COURSE_ADMIN ∧ question.course.adminId = user.id) ∨
          (user.role = Role.STUDENT ∧ enrolled) then
        run
      else .err "Insufficient permissions"

/-! ### LLM assessment (`llm-service.ts`) -/

/-- The structured grading result `generateObject` parses against
`assessmentSchema`. -/
structure AssessmentResult where
  score : Int
  feedback : String
  confidence : Rat
  comparisonData : ComparisonData
deriving DecidableEq, Repr

/-- The hard-coded fallback returned by `assessSubmission`'s catch
block when the `generateObject` call throws. -/
def fallbackAssessment : AssessmentResult :=
  { score := 50
    feedback := "Assessment temporarily unavailable. Please try again later."
    confidence := 1/10
    comparisonData :=
      { similarities := ["Unable to analyze"]
        differences := ["Assessment service temporarily unavailable"]
        suggestions := ["Please resubmit for assessment"] } }

/-- `assessSubmission({...})`: the `generateObject` call is the
external collaborator, modelled by its outcome `llm` (`.ok` = parsed
object, `.error` = any thrown exception).  The catch block swallows
every exception into `fallbackAssessment`; this function never
throws. -/
def assessSubmission (llm : Except String AssessmentResult) : AssessmentResult :=
  match llm with
  | .ok result => result
  | .error _ => fallbackAssessment

/-! ### Assessment engine (`assessment-service.ts`) -/

/-- `AssessmentMetrics` attached by the engine. -/
structure AssessmentMetrics where
  processingTime : Nat
  complexity : String
  modelUsed : String
  confidence : Rat
deriving DecidableEq, Repr

/-- `EnhancedAssessmentResult` returned by the engine. -/
structure EnhancedAssessmentResult where
  score : Int
  feedback : String
  confidence : Rat
  comparisonData : ComparisonData
  metrics : AssessmentMetrics
deriving DecidableEq, Repr

namespace AssessmentEngine

/-- `extractSubmissionContent`: the raw column for the question's
kind (no falsy-to-null mapping here, unlike `getSubmissionContent`). -/
def extractSubmissionContent (submissionType : SubmissionType)
    (s : Submission) : Option String :=
  match submissionType with
  | .TEXT => s.content
  | .WEBSITE => s.websiteUrl
  | .GITHUB_REPO => s.githubUrl
  | .DOCUMENT => s.fileUrl

/-- The catch block of `assessSubmissionWithBase`: every error thrown
inside the engine is converted into a score-0 result whose feedback
carries the error message. -/
def engineFailure (message : String) (processingTime : Nat) :
    EnhancedAssessmentResult :=
  { score := 0
    feedback := "Assessment failed: " ++ message
    confidence := 0
    comparisonData :=
      { similarities := []
        differences := ["Assessment could not be completed"]
        suggestions := ["Please contact support or try resubmitting"] }
    metrics :=
      { processingTime := processingTime
        complexity := "unknown"
        modelUsed := "none"
        confidence := 0 } }

/-- `AssessmentEngine.assessSubmissionWithBase(submissionId)` under the
default config `{ useBaseExample: true }` (so `useDetailedComparison`
is falsy and the standard `performTypedAssessment` path runs — whose
four branches all call `assessSubmission`, differing only in the
complexity hint).  Total: every internal throw (`Submission not
found`, `No base example`, `No content`) is caught and rendered by
`engineFailure`, and `assessSubmission` itself never throws, so no
exception escapes this function. -/
def assessSubmissionWithBase (db : DB) (submissionId : String)
    (llm : Except String AssessmentResult) (processingTime : Nat) :
    EnhancedAssessmentResult :=
  match db.submissions.find? (fun s => s.id = submissionId) with
  | none => engineFailure "Submission not found" processingTime
  | some submission =>
    match db.questions.find? (fun q => q.id = submission.questionId) with
    | none => engineFailure "Question not found" processingTime
    | some question =>
      if question.baseExample = none then
        engineFailure "No base example available for this question" processingTime
      else
        match jsOrNull (extractSubmissionContent question.submissionType submission) with
        | none => engineFailure "No content found in submission" processingTime
        | some submissionContent =>
          let complexity :=
            determineComplexity question.submissionType (some submissionContent.length)
              (some (question.submissionType = SubmissionType.GITHUB_REPO))
          let assessment := assessSubmission llm
          { score := assessment.score
            feedback := assessment.feedback
            confidence := assessment.confidence
            comparisonData := assessment.comparisonData
            metrics :=
              { processingTime := processingTime
                complexity := complexity.toStr
                modelUsed := getModelForComplexity complexity
                confidence := assessment.confidence } }

/-- `AssessmentEngine.processAndStoreAssessment(submissionId)` =
`processSubmission`: set PROCESSING, run `assessSubmissionWithBase`,
store the result as COMPLETED with `processedAt = now`.  The catch
that writes FAILED is reachable only when a store update itself
throws: `assessSubmissionWithBase` is total (it catches everything,
LLM exceptions included), and the modelled single-row updates succeed
whenever the row exists.  When the row is absent the first update
throws and the catch's own update throws again, leaving the store
unchanged. -/
def processAndStoreAssessment (db : DB) (submissionId : String)
    (llm : Except String AssessmentResult) (now : Nat) : DB :=
  match db.submissions.find? (fun s => s.id = submissionId) with
  | none => db
  | some _ =>
    let db1 := db.updateRow submissionId fun s =>
      { s with status := SubmissionStatus.PROCESSING }
    let result := assessSubmissionWithBase db1 submissionId llm 0
    db1.updateRow submissionId fun s =>
      { s with
        status := SubmissionStatus.COMPLETED
        score := some result.score
        feedback := some result.feedback
        confidence := some result.confidence
        comparisonData := some result.comparisonData
        processedAt := some now }

/-- The batch waves of `batchAssessSubmissions`: the loop
`for (i = 0; i < n; i += 3)` takes `slice(i, i + 3)` as the group
graded concurrently by one `Promise.all`, paired with whether the
1000 ms pause follows (`i + batchSize < submissionIds.length`, i.e.
iff ids remain after the group).  Rendered structurally: a group of
three with ids remaining carries the pause flag; the final group
(one to three ids) does not. -/
def batchSchedule {α : Type} : List α → List (List α × Bool)
  | [] => []
  | a :: b :: c :: d :: rest => ([a, b, c], true) :: batchSchedule (d :: rest)
  | l => [(l, false)]

/-- `AssessmentEngine.batchAssessSubmissions(submissionIds)`: the
results record, one entry per graded id in grading order; `grade` is
the per-id assessment (`assessSubmissionWithBase` with this run's
context).  Waves are materialised by `batchSchedule`. -/
def batchAssessSubmissions {ρ : Type} (grade : String → ρ) (submissionIds : List String) :
    List (String × ρ) :=
  (batchSchedule submissionIds).foldr
    (fun wave acc => wave.1.map (fun id => (id, grade id)) ++ acc) []

end AssessmentEngine

/-- `processSubmission` re-export used by the submission actions. -/
def processSubmission (db : DB) (submissionId : String)
    (llm : Except String AssessmentResult) (now : Nat) : DB :=
  AssessmentEngine.processAndStoreAssessment db submissionId llm now

/-! ### Result management (`AssessmentResultManager.getAssessmentResults`) -/

/-- The filter argument of `getAssessmentResults`. -/
structure ResultFilters where
  courseId : Option String := none
  questionId : Option String := none
  studentId : Option String := none
  status : Option SubmissionStatus := none
  minScore : Option Int := none
  maxScore : Option Int := none
  dateFrom : Option Nat := none
  dateTo : Option Nat := none
  limit : Option Nat := none
  offset : Option Nat := none
deriving DecidableEq, Repr

/-- The `whereClause` the result manager builds: the role scoping plus
the optional filters.  `questionCourseAdminId` and `questionCourseId`
together render the spread-merged `question: { course: { adminId },
courseId }` relation filter. -/
structure ResultWhere where
  studentId : Option String
  questionCourseAdminId : Option String
  questionCourseId : Option String
  questionId : Option String
  status : Option SubmissionStatus
  minScore : Option Int
  maxScore : Option Int
  dateFrom : Option Nat
  dateTo : Option Nat
deriving DecidableEq, Repr

namespace AssessmentResultManager

/-- `whereClause` construction of `getAssessmentResults` (part one of
the body): role scoping first, then each truthy filter; `studentId`
from the filters is honoured only for non-student callers.  String
filters are guarded by JS truthiness (`jsOrNull`); the score bounds by
`!== undefined`; the date bounds are `Date` objects, always truthy. -/
def buildWhere (user : AuthUser) (filters : ResultFilters) : ResultWhere :=
  let roleStudentId := if user.role = Role.STUDENT then some user.id else none
  { studentId :=
      match jsOrNull filters.studentId with
      | some sid => if user.role ≠ Role.STUDENT then some sid else roleStudentId
      | none => roleStudentId
    questionCourseAdminId :=
      if user.role = Role.COURSE_ADMIN then some user.id else none
    questionCourseId := jsOrNull filters.courseId
    questionId := jsOrNull filters.questionId
    status := filters.status
    minScore := filters.minScore
    maxScore := filters.maxScore
    dateFrom := filters.dateFrom
    dateTo := filters.dateTo }

/-- Evaluate a `ResultWhere` against a row.  The two `question.*`
constraints are one relation filter: the row's question must exist and
satisfy both.  A score bound excludes rows whose `score` is null, as
the SQL comparison does. -/
def resultMatches (db : DB) (w : ResultWhere) (s : Submission) : Bool :=
  (match w.studentId with
    | none => true
    | some sid => decide (s.studentId = sid)) &&
  (match w.questionCourseAdminId, w.questionCourseId with
    | none, none => true
    | a, c =>
      match db.questions.find? (fun q => q.id = s.questionId) with
      | none => false
      | some q =>
        (match a with | none => true | some aid => decide (q.course.adminId = aid)) &&
        (match c with | none => true | some cid => decide (q.course.id = cid))) &&
  (match w.questionId with
    | none => true
    | some qid => decide (s.questionId = qid)) &&
  (match w.status with
    | none => true
    | some st => decide (s.status = st)) &&
  (match w.minScore with
    | none => true
    | some m => match s.score with | none => false | some sc => decide (m ≤ sc)) &&
  (match w.maxScore with
    | none => true
    | some m => match s.score with | none => false | some sc => decide (sc ≤ m)) &&
  (match w.dateFrom with
    | none => true
    | some d => decide (d ≤ s.submittedAt)) &&
  (match w.dateTo with
    | none => true
    | some d => decide (s.submittedAt ≤ d))

/-- `getAssessmentResults(filters)`: `(results, total, hasMore)`.
`results` is kept at row granularity — the source maps each selected
row 1:1 to an `AssessmentResultSummary` of display fields
(student/question/course names), a projection that drops no rows.
`limit = Math.min(filters.limit || 50, 100)`, `offset =
filters.offset || 0`, `hasMore = offset + limit < total`. -/
def getAssessmentResults (user : AuthUser) (db : DB) (filters : ResultFilters) :
    List Submission × Nat × Bool :=
  let whereClause := buildWhere user filters
  let matching :=
    (db.submissions.filter (resultMatches db whereClause)).mergeSort
      fun a b => b.submittedAt ≤ a.submittedAt
  let total := matching.length
  let limit := min (match filters.limit with
    | none => 50
    | some n => if n = 0 then 50 else n) 100
  let offset := filters.offset.getD 0
  ((matching.drop offset).take limit, total, decide (offset + limit < total))

end AssessmentResultManager

/-! ### Statement helpers and concrete fixtures -/

/-- The raw content field matching a question's kind, before the
falsy-to-null mapping: `getSubmissionContent t d = jsOrNull
(kindField t d)`. -/
def kindField (t : SubmissionType) (d : ContentFields) : Option String :=
  match t with
  | .TEXT => d.content
  | .WEBSITE => d.websiteUrl
  | .GITHUB_REPO => d.githubUrl
  | .DOCUMENT => d.fileUrl

/-- Remove the content field matching the given kind from a create
payload (used to state that supplying the matching field as the empty
string behaves exactly like omitting it). -/
def clearKindField (t : SubmissionType) (i : CreateSubmissionInput) :
    CreateSubmissionInput :=
  match t with
  | .TEXT => { i with content := none }
  | .DOCUMENT => { i with fileUrl := none }
  | .WEBSITE => { i with websiteUrl := none }
  | .GITHUB_REPO => { i with githubUrl := none }

/-- A course owned by course admin `admin1`. -/
def course0 : Course :=
  { id := "c1", title := "Course 1", adminId := "admin1" }

/-- An active TEXT question of `course0` with a base example. -/
def question0 : Question :=
  { id := "q1", title := "Q1", description := "Declare x"
    criteria := none, submissionType := SubmissionType.TEXT
    isActive := true, course := course0
    baseExample := some { content := "const x = 1;" } }

/-- An inactive TEXT question of `course0`. -/
def questionInactive : Question :=
  { question0 with id := "q2", isActive := false }

/-- The enrolled student caller. -/
def student0 : AuthUser := { id := "stu1", role := Role.STUDENT }

/-- A student not enrolled in `course0`. -/
def student1 : AuthUser := { id := "stu2", role := Role.STUDENT }

/-- `student0`'s enrollment in `course0`. -/
def enrollment0 : Enrollment := { courseId := "c1", studentId := "stu1" }

/-- Store with the two questions and the one enrollment, no submissions. -/
def db0 : DB :=
  { questions := [question0, questionInactive]
    enrollments := [enrollment0], submissions := [] }

/-- A valid create payload for `question0` (text content only). -/
def input0 : CreateSubmissionInput :=
  { questionId := "q1", content := some "var x = 1;"
    fileUrl := none, websiteUrl := none, githubUrl := none }

/-- A create payload that also supplies a website URL alongside the
text content of a TEXT question. -/
def inputExtra : CreateSubmissionInput :=
  { input0 with websiteUrl := some "https://example.com" }

/-- The pending submission `createSubmission student0 db0 input0` creates. -/
def submission0 : Submission :=
  { id := "s1", questionId := "q1", studentId := "stu1"
    content := some "var x = 1;", fileUrl := none
    websiteUrl := none, githubUrl := none
    status := SubmissionStatus.PENDING, submittedAt := 0
    processedAt := none, score := none, feedback := none
    confidence := none, comparisonData := none }

/-- Store holding `submission0`. -/
def db1 : DB := { db0 with submissions := [submission0] }

/-- Store after `createSubmission student0 db0 input0 "s1" 0`. -/
def dbAfter0 : DB := { db0 with submissions := [submission0] }

/-- A submission currently being graded. -/
def submissionProcessing : Submission :=
  { submission0 with id := "s2", status := SubmissionStatus.PROCESSING }

/-- Store holding `submissionProcessing`. -/
def db2 : DB := { db0 with submissions := [submissionProcessing] }

/-- An edit of `submission0`'s text by its owner. -/
def updateInput0 : UpdateSubmissionInput :=
  { id := "s1", content := some "let x = 1;"
    fileUrl := none, websiteUrl := none, githubUrl := none }

/-- An attempted edit of the in-flight `submissionProcessing`. -/
def updateInput1 : UpdateSubmissionInput := { updateInput0 with id := "s2" }

/-! ## Theorems -/

/-- C7: for every submission type and content length,
`determineComplexity` returns AGENTIC for GITHUB_REPO regardless of
length; COMPLEX for DOCUMENT above its 5000 threshold else STANDARD;
STANDARD for TEXT above its 1000 threshold else BASIC; and STANDARD
for WEBSITE regardless of length. -/
theorem C7_determineComplexity_tiers (len : Option Nat) (hca : Option Bool) :
    determineComplexity SubmissionType.GITHUB_REPO len hca = LLMComplexity.AGENTIC ∧
    determineComplexity SubmissionType.DOCUMENT len hca =
      (if len.getD 0 > 5000 then LLMComplexity.COMPLEX else LLMComplexity.STANDARD) ∧
    determineComplexity SubmissionType.TEXT len hca =
      (if len.getD 0 > 1000 then LLMComplexity.STANDARD else LLMComplexity.BASIC) ∧
    determineComplexity SubmissionType.WEBSITE len hca = LLMComplexity.STANDARD :=
  ⟨rfl, rfl, rfl, rfl⟩

/-- C8: `requireRole(allowed)` fails with the authentication error when
no session identity exists, fails with the permission error when an
identity exists whose role is missing or not in `allowed`, and
otherwise returns the identity unchanged; `requireAdmin` and
`requireSuperAdmin` are exactly `requireRole` at their role lists.
The guards are pure functions of the session — no side effects. -/
theorem C8_requireRole_guards (session : Option SessionUser) (allowed : List Role) :
    requireRole session allowed =
      (match session with
        | none => Except.error "Authentication required"
        | some u =>
          match u.role with
          | none => Except.error "Insufficient permissions"
          | some r =>
            if allowed.contains r then Except.ok u
            else Except.error "Insufficient permissions") ∧
    requireAdmin session = requireRole session [Role.SUPER_ADMIN, Role.COURSE_ADMIN] ∧
    requireSuperAdmin session = requireRole session [Role.SUPER_ADMIN] := by
  refine ⟨?_, rfl, rfl⟩
  cases session with
  | none => rfl
  | some u =>
    rcases u with ⟨i, e, r⟩
    cases r <;> rfl

/-- C5: for a Student caller, `createSubmission`'s precondition checks
fail in order without creating any row or scheduling grading: question
absent ⇒ "Question not found"; question found but no enrollment ⇒ the
Forbidden enrollment error; enrolled but question inactive ⇒ the
InvalidState error; active but payload lacking the content value for
the question's kind ⇒ the InvalidInput content-required error.  In
every branch the store is returned unchanged and no grading pass is
dispatched. -/
theorem C5_createSubmission_precondition_order (user : AuthUser) (db : DB)
    (input : CreateSubmissionInput) (newId : String) (now : Nat)
    (hrole : user.role = Role.STUDENT) :
    (db.questions.find? (fun q => q.id = input.questionId) = none →
      createSubmission user db input newId now =
        (ActionResult.err "Question not found", db, false)) ∧
    ∀ q, db.questions.find? (fun q => q.id = input.questionId) = some q →
      (((db.enrollments.filter fun e =>
            decide (e.courseId = q.course.id ∧ e.studentId = user.id)).length = 0 →
        createSubmission user db input newId now =
          (ActionResult.err "You must be enrolled in this course to submit", db, false)) ∧
      ((db.enrollments.filter fun e =>
            decide (e.courseId = q.course.id ∧ e.studentId = user.id)).length ≠ 0 →
        q.isActive = false →
        createSubmission user db input newId now =
          (ActionResult.err "This question is no longer accepting submissions", db, false)) ∧
      ((db.enrollments.filter fun e =>
            decide (e.courseId = q.course.id ∧ e.studentId = user.id)).length ≠ 0 →
        q.isActive = true →
        getSubmissionContent q.submissionType input.fields = none →
        createSubmission user db input newId now =
          (ActionResult.err (q.submissionType.toLower ++ " content is required"),
            db, false))) := by
  have hr : ¬ user.role ≠ Role.STUDENT := by simp [hrole]
  refine ⟨fun h => ?_, fun q hq => ⟨fun hlen => ?_, fun hlen hact => ?_,
    fun hlen hact hcont => ?_⟩⟩
  · unfold createSubmission
    simp only [h, if_neg hr]
  · unfold createSubmission
    simp only [hq, if_neg hr, if_pos hlen]
  · unfold createSubmission
    simp only [hq, if_neg hr, if_neg hlen, if_pos (show ¬ q.isActive by simp [hact])]
  · unfold createSubmission
    simp only [hq, if_neg hr, if_neg hlen,
      if_neg (show ¬ ¬ q.isActive by simp [hact]), hcont]

/-- Witness for C5: each guard observed at a concrete store. -/
theorem C5_witness :
    createSubmission student0 db0 { input0 with questionId := "zzz" } "s9" 7 =
      (ActionResult.err "Question not found", db0, false) ∧
    createSubmission student1 db0 input0 "s9" 7 =
      (ActionResult.err "You must be enrolled in this course to submit", db0, false) ∧
    createSubmission student0 db0 { input0 with questionId := "q2" } "s9" 7 =
      (ActionResult.err "This question is no longer accepting submissions", db0, false) ∧
    createSubmission student0 db0 { input0 with content := none } "s9" 7 =
      (ActionResult.err "text content is required", db0, false) := by
  refine ⟨?_, ?_, ?_, ?_⟩
  · exact (C5_createSubmission_precondition_order student0 db0
      { input0 with questionId := "zzz" } "s9" 7 rfl).1 (by decide)
  · exact (((C5_createSubmission_precondition_order student1 db0 input0 "s9" 7 rfl).2
      question0 (by decide)).1) (by decide)
  · exact (((C5_createSubmission_precondition_order student0 db0
      { input0 with questionId := "q2" } "s9" 7 rfl).2
      questionInactive (by decide)).2.1) (by decide) (by decide)
  · exact (((C5_createSubmission_precondition_order student0 db0
      { input0 with content := none } "s9" 7 rfl).2
      question0 (by decide)).2.2) (by decide) (by decide) (by decide)

/-- C10: when the payload supplies the content field matching the
question's kind as the empty string, extraction maps it to null
(`jsOrNull`), so the extracted content is `none`; the call is
indistinguishable from one omitting the field entirely (same result,
same store); and for an enrolled Student on an active question it
fails with the content-required InvalidInput error, creating no row
and scheduling nothing. -/
theorem C10_empty_string_content (user : AuthUser) (db : DB)
    (input : CreateSubmissionInput) (newId : String) (now : Nat) (q : Question)
    (hq : db.questions.find? (fun x => x.id = input.questionId) = some q)
    (hempty : kindField q.submissionType input.fields = some "") :
    getSubmissionContent q.submissionType input.fields = none ∧
    createSubmission user db input newId now =
      createSubmission user db (clearKindField q.submissionType input) newId now ∧
    (user.role = Role.STUDENT →
      (db.enrollments.filter fun e =>
        decide (e.courseId = q.course.id ∧ e.studentId = user.id)).length ≠ 0 →
      q.isActive = true →
      createSubmission user db input newId now =
        (ActionResult.err (q.submissionType.toLower ++ " content is required"),
          db, false)) := by
  have hsplit : ∀ d, getSubmissionContent q.submissionType d =
      jsOrNull (kindField q.submissionType d) := by
    intro d; cases q.submissionType <;> rfl
  have hnone : getSubmissionContent q.submissionType input.fields = none := by
    rw [hsplit, hempty]; rfl
  have hqid : (clearKindField q.submissionType input).questionId = input.questionId := by
    cases q.submissionType <;> rfl
  have hnone' :
      getSubmissionContent q.submissionType (clearKindField q.submissionType input).fields
        = none := by
    rw [hsplit]
    cases q.submissionType <;>
      simp [kindField, clearKindField, CreateSubmissionInput.fields, jsOrNull]
  refine ⟨hnone, ?_, fun hrole hlen hact => ?_⟩
  · unfold createSubmission
    rw [hqid]
    simp only [hq]
    by_cases hr : user.role ≠ Role.STUDENT
    · rw [if_pos hr, if_pos hr]
    · rw [if_neg hr, if_neg hr]
      by_cases hlen : (db.enrollments.filter fun e =>
          decide (e.courseId = q.course.id ∧ e.studentId = user.id)).length = 0
      · rw [if_pos hlen, if_pos hlen]
      · rw [if_neg hlen, if_neg hlen]
        by_cases hact : ¬ q.isActive
        · rw [if_pos hact, if_pos hact]
        · rw [if_neg hact, if_neg hact, hnone, hnone']
  · unfold createSubmission
    simp only [hq, if_neg (show ¬ user.role ≠ Role.STUDENT by simp [hrole]),
      if_neg hlen, if_neg (show ¬ ¬ q.isActive by simp [hact]), hnone]

/-- Witness for C10: an empty-string text submission to `question0`. -/
theorem C10_witness :
    getSubmissionContent question0.submissionType
      ({ input0 with content := some "" } : CreateSubmissionInput).fields = none ∧
    createSubmission student0 db0 { input0 with content := some "" } "s9" 7 =
      (ActionResult.err "text content is required", db0, false) := by
  have h := C10_empty_string_content student0 db0 { input0 with content := some "" }
    "s9" 7 question0 (by decide) (by decide)
  exact ⟨h.1, h.2.2 rfl (by decide) (by decide)⟩

/-- C2 counterexample: `question0` is a TEXT question, yet a payload
that also carries a website URL yields a successfully created row
whose `websiteUrl` is NOT null — `createSubmission` persists all four
payload fields verbatim, so the claimed exclusivity fails. -/
theorem C2_counterexample :
    question0.submissionType = SubmissionType.TEXT ∧
    (createSubmission student0 db0 inputExtra "s1" 0).1.isOk = true ∧
    ((createSubmission student0 db0 inputExtra "s1" 0).2.1.submissions.map
      fun s => (s.content, s.websiteUrl)) =
      [(some "var x = 1;", some "https://example.com")] := by
  refine ⟨rfl, rfl, rfl⟩

/-- C2 amended: every row created through `createSubmission` has the
content field matching the Question's kind non-null (the extraction
gate guarantees it), but the four content columns are persisted
exactly as the payload supplied them — the other three are null only
when the caller omits them, so the claimed exclusivity holds only for
payloads supplying just the matching field. -/
theorem C2_created_row_fields (user : AuthUser) (db : DB)
    (input : CreateSubmissionInput) (newId : String) (now : Nat) (q : Question)
    (sub : Submission) (db' : DB) (b : Bool)
    (hq : db.questions.find? (fun x => x.id = input.questionId) = some q)
    (h : createSubmission user db input newId now = (ActionResult.ok sub, db', b)) :
    sub.content = input.content ∧ sub.fileUrl = input.fileUrl ∧
    sub.websiteUrl = input.websiteUrl ∧ sub.githubUrl = input.githubUrl ∧
    getSubmissionContent q.submissionType sub.fields ≠ none ∧
    db'.submissions = db.submissions ++ [sub] := by
  unfold createSubmission at h
  by_cases hr : user.role ≠ Role.STUDENT
  · rw [if_pos hr] at h
    simp at h
  · rw [if_neg hr] at h
    simp only [hq] at h
    by_cases hlen : (db.enrollments.filter fun e =>
        decide (e.courseId = q.course.id ∧ e.studentId = user.id)).length = 0
    · rw [if_pos hlen] at h
      simp at h
    · rw [if_neg hlen] at h
      by_cases hact : ¬ q.isActive
      · rw [if_pos hact] at h
        simp at h
      · rw [if_neg hact] at h
        cases hc : getSubmissionContent q.submissionType input.fields with
        | none =>
          rw [hc] at h
          simp at h
        | some v =>
          rw [hc] at h
          simp only [Prod.mk.injEq, ActionResult.ok.injEq] at h
          obtain ⟨hsub, hdb, _⟩ := h
          subst hsub
          subst hdb
          refine ⟨rfl, rfl, rfl, rfl, ?_, rfl⟩
          show getSubmissionContent q.submissionType input.fields ≠ none
          rw [hc]
          simp

/-- Witness for C2's amended theorem: the row created for `input0`. -/
theorem C2_witness :
    submission0.content = input0.content ∧ submission0.fileUrl = input0.fileUrl ∧
    submission0.websiteUrl = input0.websiteUrl ∧
    submission0.githubUrl = input0.githubUrl ∧
    getSubmissionContent question0.submissionType submission0.fields ≠ none ∧
    dbAfter0.submissions = db0.submissions ++ [submission0] :=
  C2_created_row_fields student0 db0 input0 "s1" 0 question0 submission0 dbAfter0
    true rfl rfl

/-- C3: an `updateSubmission` by the owning Student in which the new
content value for the Question's kind is present and differs from the
stored value persists a row with status=Pending and score, feedback,
confidence, comparison data and processedAt all null, and schedules a
new grading pass for that submission id. -/
theorem C3_update_changed_content_resets (user : AuthUser) (db : DB)
    (input : UpdateSubmissionInput) (s : Submission) (q : Question) (v : String)
    (hs : db.submissions.find? (fun x => x.id = input.id) = some s)
    (hown : s.studentId = user.id)
    (hst : s.status ≠ SubmissionStatus.PROCESSING)
    (hq : db.questions.find? (fun x => x.id = s.questionId) = some q)
    (hnew : getSubmissionContent q.submissionType input.fields = some v)
    (hdiff : some v ≠ getSubmissionContent q.submissionType s.fields) :
    ∃ sub,
      updateSubmission user db input =
        (ActionResult.ok sub, db.updateRow input.id fun _ => sub, true) ∧
      sub.status = SubmissionStatus.PENDING ∧ sub.score = none ∧
      sub.feedback = none ∧ sub.confidence = none ∧
      sub.comparisonData = none ∧ sub.processedAt = none := by
  unfold updateSubmission
  simp only [hs]
  rw [if_neg (show ¬ s.studentId ≠ user.id by simp [hown]), if_neg hst]
  simp only [hq, hnew]
  rw [decide_eq_true hdiff]
  exact ⟨_, rfl, rfl, rfl, rfl, rfl, rfl, rfl⟩

/-- Witness for C3: editing `submission0`'s text. -/
theorem C3_witness :
    ∃ sub,
      updateSubmission student0 db1 updateInput0 =
        (ActionResult.ok sub, db1.updateRow "s1" fun _ => sub, true) ∧
      sub.status = SubmissionStatus.PENDING ∧ sub.score = none ∧
      sub.feedback = none ∧ sub.confidence = none ∧
      sub.comparisonData = none ∧ sub.processedAt = none :=
  C3_update_changed_content_resets student0 db1 updateInput0 submission0 question0
    "let x = 1;" rfl rfl (by decide) rfl rfl (by decide)

/-- C4: an `updateSubmission` on a submission whose status is
Processing returns a failure and leaves the store entirely unchanged,
scheduling nothing; when additionally the caller owns the submission,
the failure is exactly the mid-grade InvalidState error (a non-owner
is rejected even earlier, by the ownership guard). -/
theorem C4_update_processing_rejected (user : AuthUser) (db : DB)
    (input : UpdateSubmissionInput) (s : Submission)
    (hs : db.submissions.find? (fun x => x.id = input.id) = some s)
    (hst : s.status = SubmissionStatus.PROCESSING) :
    (updateSubmission user db input).1.isOk = false ∧
    (updateSubmission user db input).2.1 = db ∧
    (updateSubmission user db input).2.2 = false ∧
    (s.studentId = user.id →
      updateSubmission user db input =
        (ActionResult.err "Cannot update submission while it is being processed",
          db, false)) := by
  unfold updateSubmission
  simp only [hs]
  by_cases hown : s.studentId ≠ user.id
  · rw [if_pos hown]
    exact ⟨rfl, rfl, rfl, fun h => absurd h hown⟩
  · rw [if_neg hown, if_pos hst]
    exact ⟨rfl, rfl, rfl, fun _ => rfl⟩

/-- Witness for C4: editing `submissionProcessing` mid-grade. -/
theorem C4_witness :
    (updateSubmission student0 db2 updateInput1).2.1 = db2 ∧
    updateSubmission student0 db2 updateInput1 =
      (ActionResult.err "Cannot update submission while it is being processed",
        db2, false) := by
  have h := C4_update_processing_rejected student0 db2 updateInput1
    submissionProcessing rfl rfl
  exact ⟨h.2.1, h.2.2.2 rfl⟩

/-- Looking up the rewritten id after `updateRow` yields the rewritten
row, provided the rewrite preserves ids. -/
theorem find?_id_map_updateRow (l : List Submission) (id : String)
    (g : Submission → Submission) (hg : ∀ s, (g s).id = s.id) :
    ((l.map fun s => if s.id = id then g s else s).find? fun s => s.id = id) =
      (l.find? fun s => s.id = id).map g := by
  induction l with
  | nil => rfl
  | cons a l ih =>
    simp only [List.map_cons, List.find?]
    by_cases h : a.id = id
    · simp [h, hg a]
    · simp [h, ih]

/-- `find?_id_map_updateRow` at the store level. -/
theorem find?_updateRow (db : DB) (id : String) (g : Submission → Submission)
    (hg : ∀ s, (g s).id = s.id) :
    ((db.updateRow id g).submissions.find? fun s => s.id = id) =
      (db.submissions.find? fun s => s.id = id).map g :=
  find?_id_map_updateRow db.submissions id g hg

/-- `updateRow` leaves the question table untouched. -/
theorem updateRow_questions (db : DB) (id : String) (g : Submission → Submission) :
    (db.updateRow id g).questions = db.questions := rfl

/-- Two successive rewrites of the same row compose, provided the
first preserves ids. -/
theorem updateRow_comp (db : DB) (id : String) (g h : Submission → Submission)
    (hg : ∀ s, (g s).id = s.id) :
    (db.updateRow id g).updateRow id h = db.updateRow id fun s => h (g s) := by
  have hfun : ((fun s => if s.id = id then h s else s) ∘
      fun s => if s.id = id then g s else s) =
      fun s => if s.id = id then h (g s) else s := by
    funext s
    by_cases hs : s.id = id
    · simp [Function.comp, hs, hg s]
    · simp [Function.comp, hs]
  unfold DB.updateRow
  simp only [List.map_map, hfun]

/-- The engine's per-kind content extraction reads only the content
columns, never the status. -/
theorem extract_ignores_status (t : SubmissionType) (s : Submission)
    (v : SubmissionStatus) :
    AssessmentEngine.extractSubmissionContent t { s with status := v } =
      AssessmentEngine.extractSubmissionContent t s := by
  cases t <;> rfl

/-- C1 counterexample: `submission0` has a base example and content,
its grading LLM call throws, and yet `processAndStoreAssessment`
persists status=Completed with score 50 — not status=Failed with a
null score as claimed. -/
theorem C1_counterexample :
    ((AssessmentEngine.processAndStoreAssessment db1 "s1"
        (Except.error "network timeout") 5).submissions.map
      fun s => (s.status, s.score)) =
      [(SubmissionStatus.COMPLETED, some (50 : Int))] := by
  decide

/-- C1 amended: when the grading call to the external LLM raises an
exception, the inner service catches it and returns the fallback
assessment (score 50, confidence 0.1, "temporarily unavailable"
feedback, placeholder comparison lists); `processSubmission` persists
this as status=Completed with `processedAt` set.  Status=Failed is
never written on an LLM exception — the Failed branch is reachable
only when a store update itself throws. -/
theorem C1_llm_error_persists_completed_fallback (db : DB) (s : Submission)
    (q : Question) (e : String) (now : Nat)
    (hs : db.submissions.find? (fun x => x.id = s.id) = some s)
    (hq : db.questions.find? (fun x => x.id = s.questionId) = some q)
    (hbase : q.baseExample ≠ none)
    (hcontent :
      jsOrNull (AssessmentEngine.extractSubmissionContent q.submissionType s) ≠ none) :
    processSubmission db s.id (Except.error e) now =
      db.updateRow s.id fun x =>
        { x with
          status := SubmissionStatus.COMPLETED
          score := some fallbackAssessment.score
          feedback := some fallbackAssessment.feedback
          confidence := some fallbackAssessment.confidence
          comparisonData := some fallbackAssessment.comparisonData
          processedAt := some now } := by
  obtain ⟨c, hc⟩ := Option.ne_none_iff_exists'.mp hcontent
  have hfind1 := find?_updateRow db s.id
    (fun x => { x with status := SubmissionStatus.PROCESSING }) (fun _ => rfl)
  rw [hs] at hfind1
  unfold processSubmission AssessmentEngine.processAndStoreAssessment
  simp only [hs]
  unfold AssessmentEngine.assessSubmissionWithBase
  simp only [hfind1, Option.map_some', updateRow_questions, hq,
    if_neg hbase, extract_ignores_status, hc, assessSubmission]
  rw [updateRow_comp db s.id
    (fun x => { x with status := SubmissionStatus.PROCESSING })
    (fun x => { x with
      status := SubmissionStatus.COMPLETED
      score := some fallbackAssessment.score
      feedback := some fallbackAssessment.feedback
      confidence := some fallbackAssessment.confidence
      comparisonData := some fallbackAssessment.comparisonData
      processedAt := some now })
    (fun _ => rfl)]

/-- Witness for C1's amended theorem: the concrete LLM-failure run of
`C1_counterexample`, with the full fallback row. -/
theorem C1_witness :
    processSubmission db1 "s1" (Except.error "network timeout") 5 =
      db1.updateRow "s1" fun x =>
        { x with
          status := SubmissionStatus.COMPLETED
          score := some fallbackAssessment.score
          feedback := some fallbackAssessment.feedback
          confidence := some fallbackAssessment.confidence
          comparisonData := some fallbackAssessment.comparisonData
          processedAt := some 5 } :=
  C1_llm_error_persists_completed_fallback db1 submission0 question0
    "network timeout" 5 rfl rfl (by decide) (by decide)

/-- What a row satisfying a `getSubmissions` where-clause guarantees
about its student and its question's course admin. -/
theorem submissionMatches_spec (db : DB) (w : SubmissionWhere) (s : Submission)
    (h : submissionMatches db w s = true) :
    (∀ sid, w.studentId = some sid → s.studentId = sid) ∧
    (∀ aid, w.questionCourseAdminId = some aid →
      ∃ q, db.questions.find? (fun x => x.id = s.questionId) = some q ∧
        q.course.adminId = aid) := by
  unfold submissionMatches at h
  simp only [Bool.and_eq_true] at h
  obtain ⟨⟨h1, h2⟩, h3⟩ := h
  constructor
  · intro sid hsid
    simp only [hsid] at h2
    exact of_decide_eq_true h2
  · intro aid haid
    simp only [haid] at h3
    cases hfind : db.questions.find? (fun x => x.id = s.questionId) with
    | none => simp [hfind] at h3
    | some q =>
      simp only [hfind] at h3
      exact ⟨q, rfl, of_decide_eq_true h3⟩

/-- What a row satisfying a `getAssessmentResults` where-clause
guarantees about its student and its question's course admin. -/
theorem resultMatches_spec (db : DB) (w : ResultWhere) (s : Submission)
    (h : AssessmentResultManager.resultMatches db w s = true) :
    (∀ sid, w.studentId = some sid → s.studentId = sid) ∧
    (∀ aid, w.questionCourseAdminId = some aid →
      ∃ q, db.questions.find? (fun x => x.id = s.questionId) = some q ∧
        q.course.adminId = aid) := by
  unfold AssessmentResultManager.resultMatches at h
  simp only [Bool.and_eq_true] at h
  obtain ⟨⟨⟨⟨⟨⟨⟨h1, h2⟩, h3⟩, h4⟩, h5⟩, h6⟩, h7⟩, h8⟩ := h
  constructor
  · intro sid hsid
    simp only [hsid] at h1
    exact of_decide_eq_true h1
  · intro aid haid
    simp only [haid] at h2
    cases hfind : db.questions.find? (fun x => x.id = s.questionId) with
    | none => simp [hfind] at h2
    | some q =>
      simp only [hfind, Bool.and_eq_true] at h2
      exact ⟨q, rfl, of_decide_eq_true h2.1⟩

/-- A Student caller's result-manager where-clause pins `studentId`
to the caller, whatever the filters say. -/
theorem buildWhere_student (user : AuthUser) (filters : ResultFilters)
    (h : user.role = Role.STUDENT) :
    (AssessmentResultManager.buildWhere user filters).studentId = some user.id := by
  unfold AssessmentResultManager.buildWhere
  cases hj : jsOrNull filters.studentId <;> simp [hj, h]

/-- A CourseAdmin caller's result-manager where-clause pins the
question's course admin to the caller. -/
theorem buildWhere_courseAdmin (user : AuthUser) (filters : ResultFilters)
    (h : user.role = Role.COURSE_ADMIN) :
    (AssessmentResultManager.buildWhere user filters).questionCourseAdminId =
      some user.id := by
  unfold AssessmentResultManager.buildWhere
  simp [h]

/-- Every row `getSubmissions` returns satisfies its where-clause. -/
theorem getSubmissions_ok_matches (user : AuthUser) (db : DB)
    (questionId : Option String) (l : List Submission)
    (h : getSubmissions user db questionId = ActionResult.ok l) :
    ∀ s ∈ l, submissionMatches db
      { questionId := questionId
        studentId := if user.role = Role.STUDENT then some user.id else none
        questionCourseAdminId :=
          if user.role = Role.COURSE_ADMIN then some user.id else none } s = true := by
  simp only [getSubmissions] at h
  intro s hs
  cases hqid : questionId with
  | none =>
    rw [hqid] at h
    injection h with h
    subst h
    exact (List.mem_filter.mp (List.mem_mergeSort.mp hs)).2
  | some qid =>
    rw [hqid] at h
    cases hfind : db.questions.find? (fun q => q.id = qid) with
    | none => simp [hfind] at h
    | some question =>
      simp only [hfind] at h
      split at h
      · injection h with h
        subst h
        exact (List.mem_filter.mp (List.mem_mergeSort.mp hs)).2
      · simp at h

/-- C6: both listings are role-scoped — every row a Student caller
gets back carries the caller's own studentId, and every row a
CourseAdmin caller gets back belongs to a question whose course the
caller administers.  This covers `getSubmissions` and the result
manager's `getAssessmentResults`. -/
theorem C6_role_scoped_listings (user : AuthUser) (db : DB)
    (questionId : Option String) (filters : ResultFilters) :
    (∀ l, getSubmissions user db questionId = ActionResult.ok l →
      ∀ s ∈ l,
        (user.role = Role.STUDENT → s.studentId = user.id) ∧
        (user.role = Role.COURSE_ADMIN →
          ∃ q, db.questions.find? (fun x => x.id = s.questionId) = some q ∧
            q.course.adminId = user.id)) ∧
    (∀ s ∈ (AssessmentResultManager.getAssessmentResults user db filters).1,
      (user.role = Role.STUDENT → s.studentId = user.id) ∧
      (user.role = Role.COURSE_ADMIN →
        ∃ q, db.questions.find? (fun x => x.id = s.questionId) = some q ∧
          q.course.adminId = user.id)) := by
  constructor
  · intro l hl s hs
    have hmatch := getSubmissions_ok_matches user db questionId l hl s hs
    have hspec := submissionMatches_spec db _ s hmatch
    exact ⟨fun hrole => hspec.1 user.id (by simp [hrole]),
      fun hrole => hspec.2 user.id (by simp [hrole])⟩
  · intro s hs
    simp only [AssessmentResultManager.getAssessmentResults] at hs
    have hmem := List.mem_mergeSort.mp
      (List.mem_of_mem_drop (List.mem_of_mem_take hs))
    have hmatch := (List.mem_filter.mp hmem).2
    have hspec := resultMatches_spec db _ s hmatch
    exact ⟨fun hrole => hspec.1 user.id (buildWhere_student user filters hrole),
      fun hrole => hspec.2 user.id (buildWhere_courseAdmin user filters hrole)⟩

/-- Witness for C6: the student listing over `db1` returns only the
student's own row. -/
theorem C6_witness : submission0.studentId = student0.id := by
  have hok : getSubmissions student0 db1 none = ActionResult.ok [submission0] := by
    simp [getSubmissions, submissionMatches, db1, db0, submission0, student0]
  exact (((C6_role_scoped_listings student0 db1 none
    ({} : ResultFilters)).1 [submission0] hok submission0 (by simp)).1) rfl

/-- The batch waves partition the input in order. -/
theorem batchSchedule_join {α : Type} : ∀ (l : List α),
    ((AssessmentEngine.batchSchedule l).map Prod.fst).flatten = l
  | [] => rfl
  | [_] => rfl
  | [_, _] => rfl
  | [_, _, _] => rfl
  | a :: b :: c :: d :: rest => by
    show ((([a, b, c], true) :: AssessmentEngine.batchSchedule (d :: rest)).map
      Prod.fst).flatten = _
    rw [List.map_cons]
    show ([a, b, c] :: (AssessmentEngine.batchSchedule (d :: rest)).map
      Prod.fst).flatten = _
    rw [List.flatten_cons, batchSchedule_join (d :: rest)]
    rfl

/-- A non-empty input has at least one batch wave. -/
theorem batchSchedule_ne_nil {α : Type} : ∀ (l : List α), l ≠ [] →
    AssessmentEngine.batchSchedule l ≠ []
  | [], h => absurd rfl h
  | [_], _ => by simp [AssessmentEngine.batchSchedule]
  | [_, _], _ => by simp [AssessmentEngine.batchSchedule]
  | [_, _, _], _ => by simp [AssessmentEngine.batchSchedule]
  | _ :: _ :: _ :: _ :: _, _ => by simp [AssessmentEngine.batchSchedule]

/-- Every wave before the last holds exactly three ids and is followed
by the inter-batch pause. -/
theorem batchSchedule_nonfinal {α : Type} : ∀ (l : List α) (i : Nat)
    (h : i + 1 < (AssessmentEngine.batchSchedule l).length),
    ((AssessmentEngine.batchSchedule l).get ⟨i, Nat.lt_of_succ_lt h⟩).1.length = 3 ∧
    ((AssessmentEngine.batchSchedule l).get ⟨i, Nat.lt_of_succ_lt h⟩).2 = true
  | [], _, h => absurd h (by simp [AssessmentEngine.batchSchedule])
  | [_], i, h => by simp [AssessmentEngine.batchSchedule] at h
  | [_, _], i, h => by simp [AssessmentEngine.batchSchedule] at h
  | [_, _, _], i, h => by simp [AssessmentEngine.batchSchedule] at h
  | _ :: _ :: _ :: _ :: _, 0, _ => ⟨rfl, rfl⟩
  | a :: b :: c :: d :: rest, i + 1, h => by
    have h' : i + 1 < (AssessmentEngine.batchSchedule (d :: rest)).length :=
      Nat.succ_lt_succ_iff.mp h
    exact batchSchedule_nonfinal (d :: rest) i h'

/-- The final wave holds between one and three ids and is not followed
by a pause. -/
theorem batchSchedule_final {α : Type} : ∀ (l : List α)
    (h : AssessmentEngine.batchSchedule l ≠ []),
    ((AssessmentEngine.batchSchedule l).getLast h).1.length ≤ 3 ∧
    ((AssessmentEngine.batchSchedule l).getLast h).1 ≠ [] ∧
    ((AssessmentEngine.batchSchedule l).getLast h).2 = false
  | [], h => absurd rfl h
  | [_], _ =>
    ⟨by show (1 : Nat) ≤ 3; decide, fun hh => List.noConfusion hh, rfl⟩
  | [_, _], _ =>
    ⟨by show (2 : Nat) ≤ 3; decide, fun hh => List.noConfusion hh, rfl⟩
  | [_, _, _], _ =>
    ⟨by show (3 : Nat) ≤ 3; decide, fun hh => List.noConfusion hh, rfl⟩
  | a :: b :: c :: d :: rest, h => by
    have hne : AssessmentEngine.batchSchedule (d :: rest) ≠ [] :=
      batchSchedule_ne_nil (d :: rest) (by simp)
    have hg : (AssessmentEngine.batchSchedule (a :: b :: c :: d :: rest)).getLast h =
        (AssessmentEngine.batchSchedule (d :: rest)).getLast hne := by
      show (List.getLast (([a, b, c], true) ::
        AssessmentEngine.batchSchedule (d :: rest)) _) = _
      exact List.getLast_cons hne
    rw [hg]
    exact batchSchedule_final (d :: rest) hne

/-- Every id of the input receives its grading result. -/
theorem batchAssess_result_of_mem {ρ : Type} (grade : String → ρ) :
    ∀ (ids : List String) (id : String), id ∈ ids →
      (id, grade id) ∈ AssessmentEngine.batchAssessSubmissions grade ids
  | [], _, h => absurd h (by simp)
  | [a], id, h => by
    have h1 := List.mem_singleton.mp h
    subst h1
    show (id, grade id) ∈ ([id].map fun x => (x, grade x)) ++ []
    simp
  | [a, b], id, h => by
    show (id, grade id) ∈ ([a, b].map fun x => (x, grade x)) ++ []
    rcases List.mem_cons.mp h with h1 | h1
    · simp [h1]
    · simp [List.mem_singleton.mp h1]
  | [a, b, c], id, h => by
    show (id, grade id) ∈ ([a, b, c].map fun x => (x, grade x)) ++ []
    rcases List.mem_cons.mp h with h1 | h1
    · simp [h1]
    rcases List.mem_cons.mp h1 with h2 | h2
    · simp [h2]
    · simp [List.mem_singleton.mp h2]
  | a :: b :: c :: d :: rest, id, h => by
    show (id, grade id) ∈ ([a, b, c].map fun x => (x, grade x)) ++
      AssessmentEngine.batchAssessSubmissions grade (d :: rest)
    rcases List.mem_cons.mp h with h1 | h
    · exact List.mem_append_left _ (by simp [h1])
    rcases List.mem_cons.mp h with h1 | h
    · exact List.mem_append_left _ (by simp [h1])
    rcases List.mem_cons.mp h with h1 | h
    · exact List.mem_append_left _ (by simp [h1])
    · exact List.mem_append_right _ (batchAssess_result_of_mem grade (d :: rest) id h)

/-- C9: `batchAssessSubmissions` partitions the input ids in order
into consecutive waves of size 3 (the last wave one to three ids),
each wave graded as one concurrent `Promise.all` group that completes
before the next wave starts; the fixed pause follows every wave except
the final one; and every input id receives a grading result. -/
theorem C9_batch_grading_waves {ρ : Type} (grade : String → ρ) (ids : List String) :
    ((AssessmentEngine.batchSchedule ids).map Prod.fst).flatten = ids ∧
    (∀ i (h : i + 1 < (AssessmentEngine.batchSchedule ids).length),
      ((AssessmentEngine.batchSchedule ids).get ⟨i, Nat.lt_of_succ_lt h⟩).1.length = 3 ∧
      ((AssessmentEngine.batchSchedule ids).get ⟨i, Nat.lt_of_succ_lt h⟩).2 = true) ∧
    (∀ h : AssessmentEngine.batchSchedule ids ≠ [],
      ((AssessmentEngine.batchSchedule ids).getLast h).1.length ≤ 3 ∧
      ((AssessmentEngine.batchSchedule ids).getLast h).1 ≠ [] ∧
      ((AssessmentEngine.batchSchedule ids).getLast h).2 = false) ∧
    (∀ id ∈ ids, (id, grade id) ∈ AssessmentEngine.batchAssessSubmissions grade ids) :=
  ⟨batchSchedule_join ids,
    fun i h => batchSchedule_nonfinal ids i h,
    fun h => batchSchedule_final ids h,
    fun id hid => batchAssess_result_of_mem grade ids id hid⟩

/-- Witness for C9: four ids split into a full wave with a pause and a
final singleton wave without one, every id graded. -/
theorem C9_witness :
    AssessmentEngine.batchSchedule ["a", "b", "c", "d"] =
      [(["a", "b", "c"], true), (["d"], false)] ∧
    ("d", 1) ∈ AssessmentEngine.batchAssessSubmissions String.length
      ["a", "b", "c", "d"] := by
  refine ⟨rfl, ?_⟩
  exact (C9_batch_grading_waves String.length ["a", "b", "c", "d"]).2.2.2 "d" (by simp)

end AssessmentAgent
